import Mathlib

/-!
Verification of the MCP-server core of CodetoPromptGenerator:
the path sandbox of the file resource, the regex safety gate of the
search tool, the context cache (TTL + capacity eviction) and the
context aggregation pipeline, shallowly embedded from
`src/mcp-server/src/tools/projectStructure.ts`,
`src/mcp-server/src/tools/search.ts` and
`src/mcp-server/src/resources/index.ts`.

Paths and file contents are modelled as `List Char`; the filesystem
(`fs.realpath`, `fs.stat`, `fs.readFile`) is abstracted by passing the
values it would return as arguments.
-/

namespace CodeToPrompt

/-- POSIX path separator (`path.sep`). -/
def pathSep : Char := '/'

/-- From `getFileResource`: the resolved root, normalized to end with the
separator — `realRoot.endsWith(path.sep) ? realRoot : realRoot + path.sep`. -/
def normalizedRoot (realRoot : List Char) : List Char :=
  if realRoot.getLast? = some pathSep then realRoot else realRoot ++ [pathSep]

/-- From `getFileResource`: the containment test on the two canonically
resolved paths — allowed unless
`realTarget !== realRoot && !realTarget.startsWith(normalizedRoot)`. -/
def containmentAllowed (realRoot realTarget : List Char) : Bool :=
  realTarget == realRoot || (normalizedRoot realRoot).isPrefixOf realTarget

/-- The part of `fs.Stats` that `getFileResource` consults. -/
structure Stats where
  isFile : Bool
  size : Nat
  deriving DecidableEq

/-- Error outcomes of the sandboxed file resource. -/
inductive FileReadError where
  | accessDenied
  | notAFile
  | sizeLimitExceeded
  deriving DecidableEq

/-- `const MAX_BYTES = 2 * 1024 * 1024; // 2 MB safeguard`. -/
def MAX_BYTES : Nat := 2 * 1024 * 1024

/-- The stat/size gate of `getFileResource`, run after containment:
reject non-regular files, then reject files over `MAX_BYTES`, then
return the content. -/
def fileGate (stats : Stats) (content : List Char) :
    Except FileReadError (List Char) :=
  if !stats.isFile then .error .notAFile
  else if stats.size > MAX_BYTES then .error .sizeLimitExceeded
  else .ok content

/-- `getFileResource` with the filesystem abstracted: `realRootOpt` is the
canonically resolved root when the `root` query parameter was supplied
(`none` when it was absent), `realTarget` the canonically resolved target,
`stats` the result of `fs.stat`, `content` the file's bytes. -/
def getFileResource (realRootOpt : Option (List Char)) (realTarget : List Char)
    (stats : Stats) (content : List Char) : Except FileReadError (List Char) :=
  match realRootOpt with
  | some realRoot =>
    if containmentAllowed realRoot realTarget then fileGate stats content
    else .error .accessDenied
  | none => fileGate stats content

/-- C1: with a root supplied, access is allowed iff the resolved target equals
the resolved root or extends it by exactly one separator (so `/a/bc` does not
match root `/a/b`); a failed containment check yields the access-denied error,
and with the root parameter absent no containment check is applied. -/
theorem file_resource_containment (realRoot realTarget : List Char)
    (h : realRoot.getLast? ≠ some pathSep) :
    (containmentAllowed realRoot realTarget = true ↔
      realTarget = realRoot ∨ ∃ rest, realTarget = realRoot ++ pathSep :: rest) ∧
    (containmentAllowed realRoot realTarget = false →
      ∀ stats content, getFileResource (some realRoot) realTarget stats content =
        .error .accessDenied) ∧
    (∀ stats content,
      getFileResource none realTarget stats content = fileGate stats content) ∧
    containmentAllowed "/a/b".toList "/a/bc".toList = false := by
  refine ⟨?_, ?_, ?_, by decide⟩
  · unfold containmentAllowed normalizedRoot
    rw [if_neg h]
    simp only [Bool.or_eq_true, beq_iff_eq, List.isPrefixOf_iff_prefix]
    constructor
    · rintro (heq | ⟨rest, hrest⟩)
      · exact Or.inl heq
      · exact Or.inr ⟨rest, by simpa [List.append_assoc] using hrest.symm⟩
    · rintro (heq | ⟨rest, hrest⟩)
      · exact Or.inl heq
      · exact Or.inr ⟨rest, by simp [hrest, List.append_assoc]⟩
  · intro hfail stats content
    simp [getFileResource, hfail]
  · intro stats content
    rfl

/-- C1 witness: the theorem instantiated at root `/a/b`. -/
theorem file_resource_containment_witness :
    (containmentAllowed "/a/b".toList "/a/b/c".toList = true ↔
      "/a/b/c".toList = "/a/b".toList ∨
        ∃ rest, "/a/b/c".toList = "/a/b".toList ++ pathSep :: rest) ∧
    (containmentAllowed "/a/b".toList "/a/b/c".toList = false →
      ∀ stats content,
        getFileResource (some "/a/b".toList) "/a/b/c".toList stats content =
          .error .accessDenied) ∧
    (∀ stats content,
      getFileResource none "/a/b/c".toList stats content = fileGate stats content) ∧
    containmentAllowed "/a/b".toList "/a/bc".toList = false :=
  file_resource_containment "/a/b".toList "/a/b/c".toList (by decide)

/-- C2: once containment has passed (or no root was supplied), a non-regular
file is rejected, a regular file larger than 2 MiB is rejected with the
size-limit error, and a regular file of at most 2 MiB passes both checks and
its content is returned. -/
theorem file_resource_size_gate (realRootOpt : Option (List Char))
    (realTarget : List Char) (stats : Stats) (content : List Char)
    (hc : ∀ realRoot, realRootOpt = some realRoot →
      containmentAllowed realRoot realTarget = true) :
    (stats.isFile = false →
      getFileResource realRootOpt realTarget stats content = .error .notAFile) ∧
    (stats.isFile = true → stats.size > MAX_BYTES →
      getFileResource realRootOpt realTarget stats content =
        .error .sizeLimitExceeded) ∧
    (stats.isFile = true → stats.size ≤ MAX_BYTES →
      getFileResource realRootOpt realTarget stats content = .ok content) := by
  have hgate : getFileResource realRootOpt realTarget stats content =
      fileGate stats content := by
    cases realRootOpt with
    | none => rfl
    | some realRoot => simp [getFileResource, hc realRoot rfl]
  refine ⟨?_, ?_, ?_⟩
  · intro hfile
    rw [hgate]
    simp [fileGate, hfile]
  · intro hfile hsize
    rw [hgate]
    simp [fileGate, hfile, hsize]
  · intro hfile hsize
    rw [hgate]
    simp [fileGate, hfile, Nat.not_lt_of_le hsize]

/-- C2 witness: under root `/a`, a directory is rejected, a 3 MiB regular file
is rejected with the size-limit error and no content, and a small regular file
is returned. -/
theorem file_resource_size_gate_witness :
    getFileResource (some "/a".toList) "/a/x".toList ⟨false, 0⟩ "hi".toList =
      .error .notAFile ∧
    getFileResource (some "/a".toList) "/a/x".toList ⟨true, 3 * 1024 * 1024⟩
      "hi".toList = .error .sizeLimitExceeded ∧
    getFileResource (some "/a".toList) "/a/x".toList ⟨true, 100⟩ "hi".toList =
      .ok "hi".toList :=
  ⟨(file_resource_size_gate (some "/a".toList) "/a/x".toList ⟨false, 0⟩
      "hi".toList (by intro r hr; cases hr; decide)).1 rfl,
   (file_resource_size_gate (some "/a".toList) "/a/x".toList
      ⟨true, 3 * 1024 * 1024⟩ "hi".toList
      (by intro r hr; cases hr; decide)).2.1 rfl (by decide),
   (file_resource_size_gate (some "/a".toList) "/a/x".toList ⟨true, 100⟩
      "hi".toList (by intro r hr; cases hr; decide)).2.2 rfl (by decide)⟩

/-! ## Regex safety gate (`isRegexSafe` in `src/mcp-server/src/tools/search.ts`) -/

/-- JS regex `.` without the `s` flag: any character except a line
terminator (`\n`, `\r`, U+2028, U+2029). -/
def isDotChar (c : Char) : Bool :=
  c != '\n' && c != '\r' && c != '\u2028' && c != '\u2029'

/-- Scan for a position where `)` is immediately followed by `q2`, with
only dot-matchable characters skipped on the way. -/
def findClose (q2 : Char) : List Char → Bool
  | [] => false
  | c :: rest =>
    (c == ')' && rest.head? == some q2) || (isDotChar c && findClose q2 rest)

/-- Scan for the inner quantifier `q1`, then delegate to `findClose`;
characters skipped on the way must be dot-matchable. -/
def findInner (q1 q2 : Char) : List Char → Bool
  | [] => false
  | c :: rest =>
    (c == q1 && findClose q2 rest) || (isDotChar c && findInner q1 q2 rest)

/-- Scan for an opening `(` anywhere, then delegate to `findInner`. -/
def findOpen (q1 q2 : Char) : List Char → Bool
  | [] => false
  | c :: rest => (c == '(' && findInner q1 q2 rest) || findOpen q1 q2 rest

/-- `regex.test(pattern)` for the detector `\(.*q1.*\)q2` (unanchored). -/
def dangerousTest (q1 q2 : Char) (pattern : List Char) : Bool :=
  findOpen q1 q2 pattern

/-- From the source: a pattern passes the gate iff its length is in
`[1, maxLength]` (default 200) and none of the four nested-quantifier
detectors `(.*+.*)+`, `(.*\*.*)\*`, `(.*+.*)\*`, `(.*\*.*)+` fires. -/
def isRegexSafe (pattern : List Char) (maxLength : Nat := 200) : Bool :=
  if pattern.length = 0 ∨ pattern.length > maxLength then false
  else
    let dangerous := [dangerousTest '+' '+', dangerousTest '*' '*',
      dangerousTest '+' '*', dangerousTest '*' '+']
    !dangerous.any (fun t => t pattern)

/-- The language of the detector regex `\(.*q1.*\)q2`, as an explicit
decomposition: the pattern contains a substring `( x q1 y ) q2` where `x` and
`y` are free of line terminators. -/
def DangerousShape (q1 q2 : Char) (pattern : List Char) : Prop :=
  ∃ pre x y suf,
    pattern = pre ++ '(' :: (x ++ q1 :: (y ++ ')' :: q2 :: suf)) ∧
    (∀ c ∈ x, isDotChar c = true) ∧ (∀ c ∈ y, isDotChar c = true)

theorem findClose_iff (q2 : Char) (l : List Char) :
    findClose q2 l = true ↔
      ∃ y suf, l = y ++ ')' :: q2 :: suf ∧ ∀ c ∈ y, isDotChar c = true := by
  induction l with
  | nil => simp [findClose]
  | cons c rest ih =>
    simp only [findClose, Bool.or_eq_true, Bool.and_eq_true, beq_iff_eq]
    constructor
    · rintro (⟨hc, hh⟩ | ⟨hdot, hrec⟩)
      · subst hc
        match rest, hh with
        | q :: rest', hh =>
          simp only [List.head?_cons, Option.some.injEq] at hh
          subst hh
          exact ⟨[], rest', rfl, by simp⟩
      · obtain ⟨y, suf, heq, hdots⟩ := ih.mp hrec
        refine ⟨c :: y, suf, by simp [heq], ?_⟩
        intro c' hc'
        rcases List.mem_cons.mp hc' with h | h
        · exact h ▸ hdot
        · exact hdots c' h
    · rintro ⟨y, suf, heq, hdots⟩
      cases y with
      | nil =>
        simp only [List.nil_append, List.cons.injEq] at heq
        obtain ⟨hc, hrest⟩ := heq
        exact Or.inl ⟨hc, by simp [hrest]⟩
      | cons c' y' =>
        simp only [List.cons_append, List.cons.injEq] at heq
        obtain ⟨hc, hrest⟩ := heq
        subst hc
        refine Or.inr ⟨hdots c (by simp), ih.mpr ⟨y', suf, hrest, ?_⟩⟩
        intro d hd
        exact hdots d (by simp [hd])

theorem findInner_iff (q1 q2 : Char) (l : List Char) :
    findInner q1 q2 l = true ↔
      ∃ x y suf, l = x ++ q1 :: (y ++ ')' :: q2 :: suf) ∧
        (∀ c ∈ x, isDotChar c = true) ∧ (∀ c ∈ y, isDotChar c = true) := by
  induction l with
  | nil => simp [findInner]
  | cons c rest ih =>
    simp only [findInner, Bool.or_eq_true, Bool.and_eq_true, beq_iff_eq]
    constructor
    · rintro (⟨hc, hcl⟩ | ⟨hdot, hrec⟩)
      · subst hc
        obtain ⟨y, suf, heq, hdots⟩ := (findClose_iff q2 rest).mp hcl
        exact ⟨[], y, suf, by simp [heq], by simp, hdots⟩
      · obtain ⟨x, y, suf, heq, hxd, hyd⟩ := ih.mp hrec
        refine ⟨c :: x, y, suf, by simp [heq], ?_, hyd⟩
        intro c' hc'
        rcases List.mem_cons.mp hc' with h | h
        · exact h ▸ hdot
        · exact hxd c' h
    · rintro ⟨x, y, suf, heq, hxd, hyd⟩
      cases x with
      | nil =>
        simp only [List.nil_append, List.cons.injEq] at heq
        obtain ⟨hc, hrest⟩ := heq
        exact Or.inl ⟨hc, (findClose_iff q2 rest).mpr ⟨y, suf, hrest, hyd⟩⟩
      | cons c' x' =>
        simp only [List.cons_append, List.cons.injEq] at heq
        obtain ⟨hc, hrest⟩ := heq
        subst hc
        refine Or.inr ⟨hxd c (by simp), ih.mpr ⟨x', y, suf, hrest, ?_, hyd⟩⟩
        intro d hd
        exact hxd d (by simp [hd])

theorem dangerousTest_iff (q1 q2 : Char) (p : List Char) :
    dangerousTest q1 q2 p = true ↔ DangerousShape q1 q2 p := by
  show findOpen q1 q2 p = true ↔ _
  unfold DangerousShape
  induction p with
  | nil => simp [findOpen]
  | cons c rest ih =>
    simp only [findOpen, Bool.or_eq_true, Bool.and_eq_true, beq_iff_eq]
    constructor
    · rintro (⟨hc, hin⟩ | hrec)
      · subst hc
        obtain ⟨x, y, suf, heq, hxd, hyd⟩ := (findInner_iff q1 q2 rest).mp hin
        exact ⟨[], x, y, suf, by simp [heq], hxd, hyd⟩
      · obtain ⟨pre, x, y, suf, heq, hxd, hyd⟩ := ih.mp hrec
        exact ⟨c :: pre, x, y, suf, by simp [heq], hxd, hyd⟩
    · rintro ⟨pre, x, y, suf, heq, hxd, hyd⟩
      cases pre with
      | nil =>
        simp only [List.nil_append, List.cons.injEq] at heq
        obtain ⟨hc, hrest⟩ := heq
        exact Or.inl ⟨hc, (findInner_iff q1 q2 rest).mpr ⟨x, y, suf, hrest, hxd, hyd⟩⟩
      | cons c' pre' =>
        simp only [List.cons_append, List.cons.injEq] at heq
        obtain ⟨hc, hrest⟩ := heq
        exact Or.inr (ih.mpr ⟨pre', x, y, suf, hrest, hxd, hyd⟩)

/-- C6: the regex gate passes a pattern iff its length is in `[1, 200]` and it
matches none of the four nested-quantifier detector shapes; in particular
`(a+)+`, `(a*)*`, `(a+)*`, `(a*)+`, the empty pattern and a 201-character
pattern are rejected while `[a-z]+` passes. -/
theorem regex_safety_gate (p : List Char) :
    (isRegexSafe p = true ↔
      1 ≤ p.length ∧ p.length ≤ 200 ∧
      ¬ DangerousShape '+' '+' p ∧ ¬ DangerousShape '*' '*' p ∧
      ¬ DangerousShape '+' '*' p ∧ ¬ DangerousShape '*' '+' p) ∧
    isRegexSafe "(a+)+".toList = false ∧
    isRegexSafe "(a*)*".toList = false ∧
    isRegexSafe "(a+)*".toList = false ∧
    isRegexSafe "(a*)+".toList = false ∧
    isRegexSafe "[a-z]+".toList = true ∧
    isRegexSafe [] = false ∧
    isRegexSafe (List.replicate 201 'x') = false := by
  refine ⟨?_, by decide, by decide, by decide, by decide, by decide, by decide,
    ?_⟩
  · unfold isRegexSafe
    by_cases h : p.length = 0 ∨ p.length > 200
    · simp only [h, if_true]
      constructor
      · intro hf
        exact absurd hf (by simp)
      · rintro ⟨h1, h2, -⟩
        rcases h with h | h
        · omega
        · omega
    · simp only [h, if_false]
      push_neg at h
      obtain ⟨h0, h200⟩ := h
      simp only [List.any_cons, List.any_nil, Bool.or_false, Bool.not_or,
        Bool.and_eq_true, Bool.not_eq_true', Bool.not_eq_true]
      constructor
      · rintro ⟨d1, d2, d3, d4⟩
        refine ⟨by omega, by omega, ?_, ?_, ?_, ?_⟩
        · intro hs
          rw [(dangerousTest_iff _ _ p).mpr hs] at d1
          exact Bool.noConfusion d1
        · intro hs
          rw [(dangerousTest_iff _ _ p).mpr hs] at d2
          exact Bool.noConfusion d2
        · intro hs
          rw [(dangerousTest_iff _ _ p).mpr hs] at d3
          exact Bool.noConfusion d3
        · intro hs
          rw [(dangerousTest_iff _ _ p).mpr hs] at d4
          exact Bool.noConfusion d4
      · rintro ⟨-, -, n1, n2, n3, n4⟩
        refine ⟨?_, ?_, ?_, ?_⟩
        · exact Bool.not_eq_true _ ▸ fun hd => n1 ((dangerousTest_iff _ _ p).mp hd)
        · exact Bool.not_eq_true _ ▸ fun hd => n2 ((dangerousTest_iff _ _ p).mp hd)
        · exact Bool.not_eq_true _ ▸ fun hd => n3 ((dangerousTest_iff _ _ p).mp hd)
        · exact Bool.not_eq_true _ ▸ fun hd => n4 ((dangerousTest_iff _ _ p).mp hd)
  · show isRegexSafe (List.replicate 201 'x') = false
    have h201 : (List.replicate 201 'x').length = 0 ∨
        (List.replicate 201 'x').length > 200 := by
      right
      rw [List.length_replicate]
      omega
    simp only [isRegexSafe, if_pos h201]

/-! ## Search tool (`searchInFile` / `searchCodebase` in
`src/mcp-server/src/tools/search.ts`, guarded variant) -/

/-- A single match reported by the search tool. -/
structure SearchResult where
  file : List Char
  line : Nat
  column : Nat
  matchStr : List Char
  context : List Char
  deriving DecidableEq

/-- One `regex.exec` hit on a line: start index and matched text. -/
structure LineMatch where
  index : Nat
  text : List Char
  deriving DecidableEq

/-- The external JS regex library: compiling a pattern either fails with a
syntax error or yields a per-line matcher enumerating the `exec` hits. -/
structure RegexLib where
  compile : List Char → Except (List Char) (List Char → List LineMatch)

/-- `text`-mode escaping:
`query.replace(/[.*+?^$\x7b\x7d()|[\]\\]/g, backslash-dollar-amp)`. -/
def escapeRegExp (query : List Char) : List Char :=
  query.flatMap fun c =>
    if c ∈ ['.', '*', '+', '?', '^', '$', '\x7b', '\x7d', '(', ')', '|', '[',
        ']', '\\'] then ['\\', c]
    else [c]

/-- `content.split('\n')`. -/
def splitLines (content : List Char) : List (List Char) :=
  content.splitOn '\n'

/-- The 2-lines-before / 2-lines-after context block around line `i`:
`lines.slice(max(0, i-2), min(lines.length, i+3)).join('\n')`. -/
def contextAround (lines : List (List Char)) (i : Nat) : List Char :=
  List.intercalate ['\n']
    ((lines.drop (i - 2)).take (min lines.length (i + 3) - (i - 2)))

/-- The search types `searchInFile` accepts. -/
inductive SearchType where
  | text
  | regex
  deriving DecidableEq

/-- `searchInFile`, with the filesystem and the regex engine abstracted:
`content?` is the outcome of `fs.readFile` (`none` when it throws). The whole
body sits in a `try` whose `catch` swallows every error and returns the empty
result list — including the unsafe-pattern rejection and compile failures. -/
def searchInFile (lib : RegexLib) (filePath : List Char)
    (content? : Option (List Char)) (query : List Char)
    (searchType : SearchType) : List SearchResult :=
  match content? with
  | none => []
  | some content =>
    let lines := splitLines content
    let compiled : Except (List Char) (List Char → List LineMatch) :=
      match searchType with
      | .regex =>
        if !isRegexSafe query then
          .error "Potentially unsafe regex pattern detected".toList
        else lib.compile query
      | .text => lib.compile (escapeRegExp query)
    match compiled with
    | .error _ => []
    | .ok engine =>
      lines.enum.flatMap fun p =>
        (engine p.2).map fun m =>
          { file := filePath, line := p.1 + 1, column := m.index + 1,
            matchStr := m.text, context := contextAround lines p.1 }

/-- `query.trim()`. -/
def trimList (l : List Char) : List Char :=
  ((l.dropWhile Char.isWhitespace).reverse.dropWhile Char.isWhitespace).reverse

/-- `path.isAbsolute` for POSIX paths. -/
def isAbsolutePath (p : List Char) : Bool :=
  p.head? == some '/'

/-- The search types accepted at the tool boundary. -/
inductive SearchKind where
  | text
  | regex
  | semantic
  deriving DecidableEq

/-- `maxResults = 100`. -/
def maxResults : Nat := 100

/-- The summary block of a search response. -/
structure SearchSummary where
  totalMatches : Nat
  filesSearched : Nat
  filesWithMatches : Nat
  truncated : Bool
  deriving DecidableEq

/-- A successful search response. -/
structure SearchOutput where
  results : List SearchResult
  summary : SearchSummary
  deriving DecidableEq

/-- The full (unlimited) match list of a search: every file's `searchInFile`
results, flattened in file order, with paths made relative. -/
def allSearchMatches (lib : RegexLib) (relative : List Char → List Char)
    (files : List (List Char × Option (List Char))) (query : List Char)
    (searchType : SearchKind) : List SearchResult :=
  let innerType : SearchType :=
    match searchType with
    | .regex => .regex
    | _ => .text
  (files.flatMap fun f => searchInFile lib f.1 f.2 query innerType).map
    fun r => { r with file := relative r.file }

/-- `searchCodebase`, with the filesystem, glob walk and path library
abstracted: `pathIsDirectory` is `fs.stat(projectPath).isDirectory()`,
`files` the pairs (absolute path, readable content) produced by
`getMatchingFiles`, and `relative` is `path.relative(projectPath, ·)`. -/
def searchCodebase (lib : RegexLib) (relative : List Char → List Char)
    (projectPath : List Char) (pathIsDirectory : Bool)
    (files : List (List Char × Option (List Char))) (query : List Char)
    (searchType : SearchKind) : Except (List Char) SearchOutput :=
  if projectPath = [] then .error "projectPath is required".toList
  else if ¬ isAbsolutePath projectPath then
    .error "projectPath must be an absolute path".toList
  else if ¬ pathIsDirectory then
    .error "projectPath must be a directory".toList
  else if trimList query = [] then .error "query is required".toList
  else
    let allResults := allSearchMatches lib relative files query searchType
    let limitedResults := allResults.take maxResults
    .ok { results := limitedResults,
          summary := { totalMatches := allResults.length,
                       filesSearched := files.length,
                       filesWithMatches := (limitedResults.map
                         (fun r => r.file)).dedup.length,
                       truncated := decide (allResults.length > maxResults) } }

/-- C7 (code evaluation): a regex search whose pattern fails the safety gate
does not abort — the rejection is swallowed by the per-file catch-all, every
file contributes zero results, and the request completes successfully with an
empty result set, for every regex library (so the pattern is never compiled)
and every file content. -/
theorem unsafe_regex_not_aborted (lib : RegexLib)
    (relative : List Char → List Char) :
    isRegexSafe "(a+)+".toList = false ∧
    (∀ filePath content?,
      searchInFile lib filePath content? "(a+)+".toList .regex = []) ∧
    searchCodebase lib relative "/p".toList true
        [("/p/a.txt".toList, some "aaaa".toList)] "(a+)+".toList .regex =
      .ok { results := [],
            summary := { totalMatches := 0, filesSearched := 1,
                         filesWithMatches := 0, truncated := false } } := by
  have hsafe : isRegexSafe ['(', 'a', '+', ')', '+'] = false := by decide
  have hfile : ∀ filePath content?,
      searchInFile lib filePath content? ['(', 'a', '+', ')', '+'] .regex =
        [] := by
    intro filePath content?
    cases content? with
    | none => rfl
    | some content =>
      simp [searchInFile, hsafe]
  refine ⟨hsafe, fun filePath content? => hfile filePath content?, ?_⟩
  simp only [searchCodebase]
  rw [if_neg (by decide), if_neg (by decide), if_neg (by decide),
    if_neg (by decide)]
  simp [allSearchMatches, hfile]

/-- C10: every successful search response carries at most 100 results; the
results are the first 100 of the full match list, `totalMatches` is the full
match count, and `truncated` holds iff that count exceeds 100. -/
theorem search_result_truncation (lib : RegexLib)
    (relative : List Char → List Char) (projectPath : List Char)
    (pathIsDirectory : Bool) (files : List (List Char × Option (List Char)))
    (query : List Char) (searchType : SearchKind) (out : SearchOutput)
    (h : searchCodebase lib relative projectPath pathIsDirectory files query
      searchType = .ok out) :
    out.results.length ≤ 100 ∧
    out.results =
      (allSearchMatches lib relative files query searchType).take 100 ∧
    out.summary.totalMatches =
      (allSearchMatches lib relative files query searchType).length ∧
    (out.summary.truncated = true ↔ out.summary.totalMatches > 100) := by
  unfold searchCodebase at h
  split at h
  · exact absurd h (by simp)
  · split at h
    · exact absurd h (by simp)
    · split at h
      · exact absurd h (by simp)
      · split at h
        · exact absurd h (by simp)
        · simp only [Except.ok.injEq] at h
          subst h
          refine ⟨?_, rfl, rfl, ?_⟩
          · exact List.length_take_le _ _
          · simp [maxResults]

/-- C10 witness: the theorem instantiated on a concrete successful search. -/
theorem search_result_truncation_witness :
    (⟨[], ⟨0, 0, 0, false⟩⟩ : SearchOutput).results.length ≤ 100 ∧
    (⟨[], ⟨0, 0, 0, false⟩⟩ : SearchOutput).results =
      (allSearchMatches ⟨fun _ => .error []⟩ id [] "hi".toList .text).take
        100 ∧
    (⟨[], ⟨0, 0, 0, false⟩⟩ : SearchOutput).summary.totalMatches =
      (allSearchMatches ⟨fun _ => .error []⟩ id [] "hi".toList .text).length ∧
    ((⟨[], ⟨0, 0, 0, false⟩⟩ : SearchOutput).summary.truncated = true ↔
      (⟨[], ⟨0, 0, 0, false⟩⟩ : SearchOutput).summary.totalMatches > 100) :=
  search_result_truncation ⟨fun _ => .error []⟩ id "/p".toList true []
    "hi".toList .text ⟨[], ⟨0, 0, 0, false⟩⟩ (by rfl)

/-! ## Cache-key derivation (`generateContextHash`): sha256 hex digest of
the JSON serialization of the (projectPath, taskDescription) descriptor -/

/-- 32-bit truncation. -/
def w32 (n : Nat) : Nat := n % 4294967296

/-- 32-bit right rotation. -/
def rotr (x n : Nat) : Nat := w32 (x >>> n ||| x <<< (32 - n))

def bigSigma0 (x : Nat) : Nat := rotr x 2 ^^^ rotr x 13 ^^^ rotr x 22

def bigSigma1 (x : Nat) : Nat := rotr x 6 ^^^ rotr x 11 ^^^ rotr x 25

def smallSigma0 (x : Nat) : Nat := rotr x 7 ^^^ rotr x 18 ^^^ (x >>> 3)

def smallSigma1 (x : Nat) : Nat := rotr x 17 ^^^ rotr x 19 ^^^ (x >>> 10)

def chF (x y z : Nat) : Nat := (x &&& y) ^^^ ((x ^^^ 0xFFFFFFFF) &&& z)

def majF (x y z : Nat) : Nat := (x &&& y) ^^^ (x &&& z) ^^^ (y &&& z)

/-- Big-endian byte decomposition of `v` into `n` bytes. -/
def beBytes : Nat → Nat → List Nat
  | 0, _ => []
  | n+1, v => beBytes n (v / 256) ++ [v % 256]

/-- SHA-256 padding: `0x80`, zeros to 56 mod 64, then the 8-byte big-endian
bit length. -/
def sha256Pad (m : List Nat) : List Nat :=
  let L := m.length
  let k := (55 + 64 - L % 64) % 64
  m ++ 0x80 :: List.replicate k 0 ++ beBytes 8 (L * 8)

/-- Split a byte list into 64-byte chunks (fuel-based so that the kernel can
reduce it; the fuel `l.length` always suffices). -/
def chunks64Aux : Nat → List Nat → List (List Nat)
  | 0, _ => []
  | _, [] => []
  | fuel+1, l => l.take 64 :: chunks64Aux fuel (l.drop 64)

def chunks64 (l : List Nat) : List (List Nat) := chunks64Aux l.length l

/-- Big-endian 32-bit words from bytes. -/
def bytesToWords : List Nat → List Nat
  | b0 :: b1 :: b2 :: b3 :: rest =>
    (((b0 * 256 + b1) * 256 + b2) * 256 + b3) :: bytesToWords rest
  | _ => []

/-- Message-schedule extension: append `rounds` more scheduled words. -/
def sha256Extend : Nat → List Nat → List Nat
  | 0, ws => ws
  | n+1, ws =>
    let t := ws.length
    let nw := w32 (smallSigma1 (ws.getD (t-2) 0) + ws.getD (t-7) 0 +
      smallSigma0 (ws.getD (t-15) 0) + ws.getD (t-16) 0)
    sha256Extend n (ws ++ [nw])

/-- The 64 SHA-256 round constants (decimal). -/
def sha256K : List Nat :=
  [1116352408, 1899447441, 3049323471, 3921009573, 961987163,
   1508970993, 2453635748, 2870763221, 3624381080, 310598401,
   607225278, 1426881987, 1925078388, 2162078206, 2614888103,
   3248222580, 3835390401, 4022224774, 264347078, 604807628,
   770255983, 1249150122, 1555081692, 1996064986, 2554220882,
   2821834349, 2952996808, 3210313671, 3336571891, 3584528711,
   113926993, 338241895, 666307205, 773529912, 1294757372,
   1396182291, 1695183700, 1986661051, 2177026350, 2456956037,
   2730485921, 2820302411, 3259730800, 3345764771, 3516065817,
   3600352804, 4094571909, 275423344, 430227734, 506948616,
   659060556, 883997877, 958139571, 1322822218, 1537002063,
   1747873779, 1955562222, 2024104815, 2227730452, 2361852424,
   2428436474, 2756734187, 3204031479, 3329325298]

/-- The initial SHA-256 hash state (decimal). -/
def sha256Init : List Nat :=
  [1779033703, 3144134277, 1013904242, 2773480762,
   1359893119, 2600822924, 528734635, 1541459225]

/-- One SHA-256 round on the 8-word working state. -/
def sha256Round (st : List Nat) (k w : Nat) : List Nat :=
  match st with
  | [a, b, c, d, e, f, g, h] =>
    let t1 := w32 (h + bigSigma1 e + chF e f g + k + w)
    let t2 := w32 (bigSigma0 a + majF a b c)
    [w32 (t1 + t2), a, b, c, w32 (d + t1), e, f, g]
  | st => st

/-- Compress one 64-byte chunk into the hash state. -/
def sha256Compress (h : List Nat) (chunk : List Nat) : List Nat :=
  let ws := sha256Extend 48 (bytesToWords chunk)
  let st := (sha256K.zip ws).foldl (fun st p => sha256Round st p.1 p.2) h
  (h.zip st).map fun p => w32 (p.1 + p.2)

/-- SHA-256 digest (32 bytes) of a byte message. -/
def sha256Bytes (m : List Nat) : List Nat :=
  let hs := (chunks64 (sha256Pad m)).foldl sha256Compress sha256Init
  hs.flatMap (beBytes 4)

/-- Lowercase hex digit for a value below 16. -/
def hexDigit (n : Nat) : Char :=
  if n < 10 then Char.ofNat ('0'.toNat + n)
  else Char.ofNat ('a'.toNat + (n - 10))

/-- Lowercase hex string of a byte list. -/
def toHex (bytes : List Nat) : List Char :=
  bytes.flatMap fun b => [hexDigit (b / 16), hexDigit (b % 16)]

/-- UTF-8 encoding of one code point, as `hash.update(string)` performs
before hashing. -/
def utf8Bytes (c : Char) : List Nat :=
  let n := c.toNat
  if n < 0x80 then [n]
  else if n < 0x800 then [0xC0 + n / 64, 0x80 + n % 64]
  else if n < 0x10000 then
    [0xE0 + n / 4096, 0x80 + n / 64 % 64, 0x80 + n % 64]
  else [0xF0 + n / 262144, 0x80 + n / 4096 % 64, 0x80 + n / 64 % 64,
    0x80 + n % 64]

def utf8Encode (s : List Char) : List Nat := s.flatMap utf8Bytes

/-- `crypto.createHash('sha256').update(s).digest('hex')`. -/
def sha256Hex (s : List Char) : List Char :=
  toHex (sha256Bytes (utf8Encode s))

/-- `JSON.stringify` escaping of one character inside a string literal:
named escapes for quote, backslash and the common control characters,
`\u00XX` for the remaining controls, the character itself otherwise. -/
def escapeJsonChar (c : Char) : List Char :=
  if c = '"' then ['\\', '"']
  else if c = '\\' then ['\\', '\\']
  else if c = '\x08' then ['\\', 'b']
  else if c = '\x09' then ['\\', 't']
  else if c = '\x0a' then ['\\', 'n']
  else if c = '\x0c' then ['\\', 'f']
  else if c = '\x0d' then ['\\', 'r']
  else if c.toNat < 32 then
    ['\\', 'u', '0', '0', hexDigit (c.toNat / 16), hexDigit (c.toNat % 16)]
  else [c]

def escapeJson (s : List Char) : List Char := s.flatMap escapeJsonChar

/-- A JSON string literal: quote, escaped content, quote. -/
def quoteJson (s : List Char) : List Char := '"' :: (escapeJson s ++ ['"'])

/-- The serialization the source hashes:
`JSON.stringify` of the two-field object holding `projectPath` and
`taskDescription`. An `undefined` task description omits the field, per
`JSON.stringify` semantics. -/
def serializeContextParams (projectPath : List Char)
    (taskDescription : Option (List Char)) : List Char :=
  "\x7b\"projectPath\":".toList ++ quoteJson projectPath ++
    (match taskDescription with
     | none => []
     | some t => ",\"taskDescription\":".toList ++ quoteJson t) ++ ['\x7d']

/-- `generateContextHash` (resource section of `projectStructure.ts`):
sha256 hex digest of the serialized parameters. -/
def generateContextHash (projectPath : List Char)
    (taskDescription : Option (List Char)) : List Char :=
  sha256Hex (serializeContextParams projectPath taskDescription)

/-- The same derivation with the digest function abstracted; the source
contains a sha256-keyed and an md5-keyed copy, both hashing the same
serialization. -/
def generateContextHashWith (digest : List Char → List Char)
    (projectPath : List Char) (taskDescription : Option (List Char)) :
    List Char :=
  digest (serializeContextParams projectPath taskDescription)

theorem escapeJsonChar_head_ne_quote (c : Char) :
    ∃ d rest, escapeJsonChar c = d :: rest ∧ d ≠ '"' := by
  unfold escapeJsonChar
  split_ifs with h1 h2 h3 h4 h5 h6 h7 h8
  · exact ⟨'\\', _, rfl, by decide⟩
  · exact ⟨'\\', _, rfl, by decide⟩
  · exact ⟨'\\', _, rfl, by decide⟩
  · exact ⟨'\\', _, rfl, by decide⟩
  · exact ⟨'\\', _, rfl, by decide⟩
  · exact ⟨'\\', _, rfl, by decide⟩
  · exact ⟨'\\', _, rfl, by decide⟩
  · exact ⟨'\\', _, rfl, by decide⟩
  · exact ⟨c, [], rfl, h1⟩

theorem escapeJson_append (a b : List Char) :
    escapeJson (a ++ b) = escapeJson a ++ escapeJson b := by
  simp [escapeJson]

/-- With the same path, the task texts `a` and `b` produce different hash
inputs. -/
theorem serialize_distinct_tasks (p : List Char) :
    serializeContextParams p (some "a".toList) ≠
      serializeContextParams p (some "b".toList) := by
  intro h
  unfold serializeContextParams at h
  simp only [List.append_assoc] at h
  have h1 := (List.append_right_inj _).mp h
  have h2 := (List.append_right_inj _).mp h1
  exact absurd h2 (by decide)

/-- The structured serialization keeps the field boundary: a non-empty task
`tB` under path `pA` cannot produce the same hash input as the empty task
under the concatenated path `pA ++ tB`. -/
theorem serialize_field_boundaries (pA tB : List Char) (hB : tB ≠ []) :
    serializeContextParams pA (some tB) ≠
      serializeContextParams (pA ++ tB) (some []) := by
  intro h
  unfold serializeContextParams at h
  simp only [List.append_assoc] at h
  have h1 := (List.append_right_inj _).mp h
  unfold quoteJson at h1
  rw [escapeJson_append] at h1
  simp only [List.cons_append, List.cons.injEq, true_and,
    List.append_assoc] at h1
  have h3 := (List.append_right_inj _).mp h1
  cases tB with
  | nil => exact hB rfl
  | cons c t' =>
    obtain ⟨d, rest, hd, hdq⟩ := escapeJsonChar_head_ne_quote c
    rw [show escapeJson (c :: t') = escapeJsonChar c ++ escapeJson t' from
      rfl, hd] at h3
    simp only [List.cons_append, List.cons.injEq] at h3
    exact hdq h3.1.symm

/-- C9: the cache key is a pure function of the verbatim descriptor —
identical descriptors give identical keys; with the same path, the tasks `a`
and `b` give different hash inputs (hence different keys under any injective
digest, and concretely different sha256 keys at a sample path); and the
structured serialization encodes the field boundary, so `(pathA, taskB)`
cannot collide with `(pathA ++ taskB, "")` at the hash-input level (nor in
the keys, under any injective digest). -/
theorem cache_key_derivation :
    (∀ p1 t1 p2 t2, p1 = p2 → t1 = t2 →
      generateContextHash p1 t1 = generateContextHash p2 t2) ∧
    (∀ p, serializeContextParams p (some "a".toList) ≠
      serializeContextParams p (some "b".toList)) ∧
    (∀ digest, Function.Injective digest → ∀ p,
      generateContextHashWith digest p (some "a".toList) ≠
        generateContextHashWith digest p (some "b".toList)) ∧
    (∀ pA tB, tB ≠ [] →
      serializeContextParams pA (some tB) ≠
        serializeContextParams (pA ++ tB) (some [])) ∧
    (∀ digest, Function.Injective digest → ∀ pA tB, tB ≠ [] →
      generateContextHashWith digest pA (some tB) ≠
        generateContextHashWith digest (pA ++ tB) (some [])) ∧
    generateContextHash "/p".toList (some "a".toList) ≠
      generateContextHash "/p".toList (some "b".toList) := by
  refine ⟨?_, serialize_distinct_tasks, ?_, serialize_field_boundaries, ?_,
    ?_⟩
  · intro p1 t1 p2 t2 hp ht
    rw [hp, ht]
  · intro digest hinj p h
    exact serialize_distinct_tasks p (hinj h)
  · intro digest hinj pA tB hB h
    exact serialize_field_boundaries pA tB hB (hinj h)
  · decide

/-- C9 witness: the theorem's quantified parts instantiated at concrete
descriptors, with the identity as an injective digest. -/
theorem cache_key_derivation_witness :
    generateContextHash "/p".toList (some "x".toList) =
      generateContextHash "/p".toList (some "x".toList) ∧
    serializeContextParams "/p".toList (some "a".toList) ≠
      serializeContextParams "/p".toList (some "b".toList) ∧
    generateContextHashWith id "/p".toList (some "a".toList) ≠
      generateContextHashWith id "/p".toList (some "b".toList) ∧
    serializeContextParams "/p".toList (some "b".toList) ≠
      serializeContextParams ("/p".toList ++ "b".toList) (some []) ∧
    generateContextHashWith id "/p".toList (some "b".toList) ≠
      generateContextHashWith id ("/p".toList ++ "b".toList) (some []) :=
  ⟨cache_key_derivation.1 _ _ _ _ rfl rfl,
   cache_key_derivation.2.1 _,
   cache_key_derivation.2.2.1 id Function.injective_id _,
   cache_key_derivation.2.2.2.1 "/p".toList "b".toList (by decide),
   cache_key_derivation.2.2.2.2.1 id Function.injective_id "/p".toList
     "b".toList (by decide)⟩

/-! ## Context cache and aggregation pipeline (`getOrCreateContext`) -/

/-- The aggregated context payload built by `getOrCreateContext`. The JS
object's optional slots are modelled as `Option` fields (absent = `none`);
`git` is assigned on every build (`none` models the explicit `null` written
on provider failure); `cached` models the `cached: true` marker a cache hit
spreads in (a stored payload never carries it, so it defaults to
`false`). The source names the structure slot `structure`, a Lean keyword,
hence `structureData` here. -/
structure ContextData where
  generated : List Char
  projectPath : List Char
  hash : List Char
  structureData : Option (List Char) := none
  structureError : Option (List Char) := none
  git : Option (List Char) := none
  relevantFiles : Option (List Char) := none
  filesError : Option (List Char) := none
  cached : Bool := false
  deriving DecidableEq

/-- One stored cache entry: `{ timestamp, data }`. -/
structure CacheEntry where
  timestamp : Int
  data : ContextData
  deriving DecidableEq

/-- The JS `Map` backing the context cache, in insertion order. -/
abbrev ContextCache := List (List Char × CacheEntry)

/-- `Map.get`. -/
def mapGet (m : ContextCache) (k : List Char) : Option CacheEntry :=
  match m with
  | [] => none
  | p :: rest => if p.1 = k then some p.2 else mapGet rest k

/-- `Map.set`: replace in place when the key is present, append otherwise. -/
def mapSet (m : ContextCache) (k : List Char) (v : CacheEntry) : ContextCache :=
  match m with
  | [] => [(k, v)]
  | p :: rest => if p.1 = k then (k, v) :: rest else p :: mapSet rest k v

/-- `CACHE_TTL = 5 * 60 * 1000` (milliseconds). -/
def CACHE_TTL : Int := 5 * 60 * 1000

/-- The capacity retained by the eviction sweep (`// keep last 50`). -/
def CACHE_CAPACITY : Nat := 50

/-- The sort comparator `(a, b) => b[1].timestamp - a[1].timestamp` as the
Boolean order of the stable merge sort (ties keep insertion order, as with
the JS stable `Array.sort`). -/
def byTimestampDesc (a b : List Char × CacheEntry) : Bool :=
  decide (b.2.timestamp ≤ a.2.timestamp)

/-- The eviction sweep at the end of `getOrCreateContext`: when more than 50
entries are present, sort them by creation timestamp descending and delete
every entry from index 50 onward from the map. -/
def evictOld (m : ContextCache) : ContextCache :=
  if m.length > CACHE_CAPACITY then
    m.filter fun p =>
      !(((m.mergeSort byTimestampDesc).drop CACHE_CAPACITY).map
        Prod.fst).contains p.1
  else m

/-- Outcomes of the three providers `getOrCreateContext` consumes
(`getProjectStructure`, `getGitContext`, `smartFileSelection`), each reduced
to the payload it delivers or the error it throws. -/
structure Providers where
  structureRes : Except (List Char) (List Char)
  gitRes : Except (List Char) (List Char)
  filesRes : Except (List Char) (List Char)

/-- The context assembly of `getOrCreateContext` on a cache miss: the
structure slot or `structureError` from the structure provider, `git` set to
the payload or to `null` (`none`) on failure, and — only when a task
description was supplied — `relevantFiles` or `filesError` from the
relevance provider. -/
def buildContext (projectPath : List Char)
    (taskDescription : Option (List Char)) (genStamp : List Char)
    (hash : List Char) (prov : Providers) : ContextData :=
  let c0 : ContextData :=
    { generated := genStamp, projectPath := projectPath, hash := hash }
  let c1 :=
    match prov.structureRes with
    | .ok s => { c0 with structureData := some s }
    | .error e => { c0 with structureError := some e }
  let c2 :=
    match prov.gitRes with
    | .ok g => { c1 with git := some g }
    | .error _ => { c1 with git := none }
  match taskDescription with
  | some _ =>
    match prov.filesRes with
    | .ok f => { c2 with relevantFiles := some f }
    | .error e => { c2 with filesError := some e }
  | none => c2

/-- `getOrCreateContext`, with the clock and the providers abstracted:
`now` is `Date.now()`, `genStamp` is `new Date().toISOString()`. Returns
the context handed to the caller and the cache state afterwards. -/
def getOrCreateContext (cache : ContextCache) (projectPath : List Char)
    (taskDescription : Option (List Char)) (now : Int) (genStamp : List Char)
    (prov : Providers) : ContextData × ContextCache :=
  let hash := generateContextHash projectPath taskDescription
  let hit : Option CacheEntry :=
    match mapGet cache hash with
    | some c => if now - c.timestamp < CACHE_TTL then some c else none
    | none => none
  match hit with
  | some c => ({ c.data with cached := true, hash := hash }, cache)
  | none =>
    let context := buildContext projectPath taskDescription genStamp hash prov
    let cache1 := mapSet cache hash { timestamp := now, data := context }
    (context, evictOld cache1)

theorem mapGet_mapSet_self (m : ContextCache) (k : List Char)
    (v : CacheEntry) : mapGet (mapSet m k v) k = some v := by
  induction m with
  | nil => simp [mapSet, mapGet]
  | cons p rest ih =>
    by_cases h : p.1 = k
    · simp [mapSet, mapGet, h]
    · simp [mapSet, mapGet, h, ih]

theorem length_mapSet_of_get (m : ContextCache) (k : List Char)
    (v e : CacheEntry) (h : mapGet m k = some e) :
    (mapSet m k v).length = m.length := by
  induction m with
  | nil => simp [mapGet] at h
  | cons p rest ih =>
    by_cases hp : p.1 = k
    · simp [mapSet, hp]
    · rw [mapGet, if_neg hp] at h
      simp [mapSet, hp, ih h]

theorem length_mapSet_le (m : ContextCache) (k : List Char)
    (v : CacheEntry) : (mapSet m k v).length ≤ m.length + 1 := by
  induction m with
  | nil => simp [mapSet]
  | cons p rest ih =>
    by_cases hp : p.1 = k
    · simp [mapSet, hp]
    · simp only [mapSet, if_neg hp, List.length_cons]
      omega

theorem mapSet_eq_append (m : ContextCache) (k : List Char) (v : CacheEntry)
    (h : k ∉ m.map Prod.fst) : mapSet m k v = m ++ [(k, v)] := by
  induction m with
  | nil => rfl
  | cons p rest ih =>
    simp only [List.map_cons, List.mem_cons] at h
    push_neg at h
    rw [mapSet, if_neg (fun hh => h.1 hh.symm), ih h.2]
    rfl

theorem evictOld_of_le (m : ContextCache) (h : m.length ≤ CACHE_CAPACITY) :
    evictOld m = m := by
  unfold evictOld
  rw [if_neg]
  omega

/-- A concrete stored payload (stored payloads never carry the `cached`
marker). -/
def c3Data : ContextData :=
  { generated := "g".toList, projectPath := "/p".toList,
    hash := generateContextHash "/p".toList none,
    structureData := some "s".toList }

/-- C3 counterexample: a cache hit within the TTL does not return the stored
payload byte-identically — the hit spreads a `cached: true` marker into the
response, so the returned payload differs from the stored one. -/
theorem context_cache_hit_not_identical :
    (getOrCreateContext
        [(generateContextHash "/p".toList none, ⟨0, c3Data⟩)] "/p".toList
        none 1000 "g2".toList
        ⟨.ok "s".toList, .ok "c".toList, .ok "f".toList⟩).1 ≠ c3Data := by
  intro h
  have hc : (getOrCreateContext
      [(generateContextHash "/p".toList none, ⟨0, c3Data⟩)] "/p".toList
      none 1000 "g2".toList
      ⟨.ok "s".toList, .ok "c".toList, .ok "f".toList⟩).1.cached = true := by
    simp [getOrCreateContext, mapGet, CACHE_TTL]
  rw [h] at hc
  simp [c3Data] at hc

/-- C3 amended: a hit within the TTL returns the stored payload with only the
`cached` marker switched on and the `hash` field recomputed from the
descriptor (the same value the entry was keyed by); every other stored field
is returned byte-identical, and the read leaves the cache unchanged. -/
theorem context_cache_hit_fields (cache : ContextCache)
    (projectPath : List Char) (taskDescription : Option (List Char))
    (now : Int) (genStamp : List Char) (prov : Providers) (e : CacheEntry)
    (hget : mapGet cache (generateContextHash projectPath taskDescription) =
      some e)
    (hfresh : now - e.timestamp < CACHE_TTL) :
    getOrCreateContext cache projectPath taskDescription now genStamp prov =
      ({ e.data with
           cached := true,
           hash := generateContextHash projectPath taskDescription }, cache) ∧
    (getOrCreateContext cache projectPath taskDescription now genStamp
      prov).1.generated = e.data.generated ∧
    (getOrCreateContext cache projectPath taskDescription now genStamp
      prov).1.projectPath = e.data.projectPath ∧
    (getOrCreateContext cache projectPath taskDescription now genStamp
      prov).1.structureData = e.data.structureData ∧
    (getOrCreateContext cache projectPath taskDescription now genStamp
      prov).1.structureError = e.data.structureError ∧
    (getOrCreateContext cache projectPath taskDescription now genStamp
      prov).1.git = e.data.git ∧
    (getOrCreateContext cache projectPath taskDescription now genStamp
      prov).1.relevantFiles = e.data.relevantFiles ∧
    (getOrCreateContext cache projectPath taskDescription now genStamp
      prov).1.filesError = e.data.filesError ∧
    (getOrCreateContext cache projectPath taskDescription now genStamp
      prov).1.cached = true := by
  have hres : getOrCreateContext cache projectPath taskDescription now
      genStamp prov =
      ({ e.data with
           cached := true,
           hash := generateContextHash projectPath taskDescription }, cache) := by
    simp [getOrCreateContext, hget, hfresh]
  refine ⟨hres, ?_, ?_, ?_, ?_, ?_, ?_, ?_, ?_⟩ <;> rw [hres]

/-- C3 witness for the amended theorem: a concrete fresh entry is returned
with all stored fields intact and the marker set. -/
theorem context_cache_hit_fields_witness :
    getOrCreateContext
        [(generateContextHash "/p".toList none, ⟨0, c3Data⟩)] "/p".toList
        none 1000 "g2".toList
        ⟨.ok "s".toList, .ok "c".toList, .ok "f".toList⟩ =
      ({ c3Data with
           cached := true,
           hash := generateContextHash "/p".toList none },
       [(generateContextHash "/p".toList none, ⟨0, c3Data⟩)]) ∧
    (getOrCreateContext
        [(generateContextHash "/p".toList none, ⟨0, c3Data⟩)] "/p".toList
        none 1000 "g2".toList
        ⟨.ok "s".toList, .ok "c".toList, .ok "f".toList⟩).1.generated =
      c3Data.generated ∧
    (getOrCreateContext
        [(generateContextHash "/p".toList none, ⟨0, c3Data⟩)] "/p".toList
        none 1000 "g2".toList
        ⟨.ok "s".toList, .ok "c".toList, .ok "f".toList⟩).1.projectPath =
      c3Data.projectPath ∧
    (getOrCreateContext
        [(generateContextHash "/p".toList none, ⟨0, c3Data⟩)] "/p".toList
        none 1000 "g2".toList
        ⟨.ok "s".toList, .ok "c".toList, .ok "f".toList⟩).1.structureData =
      c3Data.structureData ∧
    (getOrCreateContext
        [(generateContextHash "/p".toList none, ⟨0, c3Data⟩)] "/p".toList
        none 1000 "g2".toList
        ⟨.ok "s".toList, .ok "c".toList, .ok "f".toList⟩).1.structureError =
      c3Data.structureError ∧
    (getOrCreateContext
        [(generateContextHash "/p".toList none, ⟨0, c3Data⟩)] "/p".toList
        none 1000 "g2".toList
        ⟨.ok "s".toList, .ok "c".toList, .ok "f".toList⟩).1.git =
      c3Data.git ∧
    (getOrCreateContext
        [(generateContextHash "/p".toList none, ⟨0, c3Data⟩)] "/p".toList
        none 1000 "g2".toList
        ⟨.ok "s".toList, .ok "c".toList, .ok "f".toList⟩).1.relevantFiles =
      c3Data.relevantFiles ∧
    (getOrCreateContext
        [(generateContextHash "/p".toList none, ⟨0, c3Data⟩)] "/p".toList
        none 1000 "g2".toList
        ⟨.ok "s".toList, .ok "c".toList, .ok "f".toList⟩).1.filesError =
      c3Data.filesError ∧
    (getOrCreateContext
        [(generateContextHash "/p".toList none, ⟨0, c3Data⟩)] "/p".toList
        none 1000 "g2".toList
        ⟨.ok "s".toList, .ok "c".toList, .ok "f".toList⟩).1.cached = true :=
  context_cache_hit_fields
    [(generateContextHash "/p".toList none, ⟨0, c3Data⟩)] "/p".toList none
    1000 "g2".toList ⟨.ok "s".toList, .ok "c".toList, .ok "f".toList⟩
    ⟨0, c3Data⟩ (by simp [mapGet]) (by decide)

/-- C4: a lookup treats a stored entry as present iff `now − createdAt` is
strictly below the five-minute TTL: a fresh entry short-circuits
regeneration and the read leaves the cache untouched, while an expired entry
is a miss — the context is regenerated and stored under the same key with
the fresh timestamp `now`, the expired entry being overwritten in place
rather than purged by the read. -/
theorem context_cache_ttl (cache : ContextCache) (projectPath : List Char)
    (taskDescription : Option (List Char)) (now : Int) (genStamp : List Char)
    (prov : Providers) (e : CacheEntry)
    (hget : mapGet cache (generateContextHash projectPath taskDescription) =
      some e)
    (hlen : cache.length ≤ CACHE_CAPACITY) :
    (now - e.timestamp < CACHE_TTL →
      getOrCreateContext cache projectPath taskDescription now genStamp
          prov =
        ({ e.data with
             cached := true,
             hash := generateContextHash projectPath taskDescription },
         cache)) ∧
    (CACHE_TTL ≤ now - e.timestamp →
      getOrCreateContext cache projectPath taskDescription now genStamp
          prov =
        (buildContext projectPath taskDescription genStamp
           (generateContextHash projectPath taskDescription) prov,
         mapSet cache (generateContextHash projectPath taskDescription)
           { timestamp := now,
             data := buildContext projectPath taskDescription genStamp
               (generateContextHash projectPath taskDescription) prov }) ∧
      mapGet (getOrCreateContext cache projectPath taskDescription now
          genStamp prov).2
          (generateContextHash projectPath taskDescription) =
        some { timestamp := now,
               data := buildContext projectPath taskDescription genStamp
                 (generateContextHash projectPath taskDescription) prov }) := by
  constructor
  · intro hfresh
    simp [getOrCreateContext, hget, hfresh]
  · intro hstale
    have hnotfresh : ¬ (now - e.timestamp < CACHE_TTL) := not_lt.mpr hstale
    have hres : getOrCreateContext cache projectPath taskDescription now
        genStamp prov =
        (buildContext projectPath taskDescription genStamp
           (generateContextHash projectPath taskDescription) prov,
         mapSet cache (generateContextHash projectPath taskDescription)
           { timestamp := now,
             data := buildContext projectPath taskDescription genStamp
               (generateContextHash projectPath taskDescription) prov }) := by
      simp only [getOrCreateContext, hget, if_neg hnotfresh]
      rw [evictOld_of_le]
      rw [length_mapSet_of_get _ _ _ _ hget]
      exact hlen
    refine ⟨hres, ?_⟩
    rw [hres]
    exact mapGet_mapSet_self _ _ _

/-- C4 witness: a concrete entry created at time 0 is a hit at `now = 1000`
and — exactly at the TTL boundary `now = 300000` — a miss that is
regenerated and re-stored under the same key with timestamp 300000. -/
theorem context_cache_ttl_witness :
    getOrCreateContext
        [(generateContextHash "/p".toList none, ⟨0, c3Data⟩)] "/p".toList
        none 1000 "g2".toList
        ⟨.error "se".toList, .ok "c".toList, .ok "f".toList⟩ =
      ({ c3Data with
           cached := true,
           hash := generateContextHash "/p".toList none },
       [(generateContextHash "/p".toList none, ⟨0, c3Data⟩)]) ∧
    (getOrCreateContext
        [(generateContextHash "/p".toList none, ⟨0, c3Data⟩)] "/p".toList
        none 300000 "g2".toList
        ⟨.error "se".toList, .ok "c".toList, .ok "f".toList⟩ =
      (buildContext "/p".toList none "g2".toList
         (generateContextHash "/p".toList none)
         ⟨.error "se".toList, .ok "c".toList, .ok "f".toList⟩,
       mapSet [(generateContextHash "/p".toList none, ⟨0, c3Data⟩)]
         (generateContextHash "/p".toList none)
         { timestamp := 300000,
           data := buildContext "/p".toList none "g2".toList
             (generateContextHash "/p".toList none)
             ⟨.error "se".toList, .ok "c".toList, .ok "f".toList⟩ }) ∧
      mapGet (getOrCreateContext
          [(generateContextHash "/p".toList none, ⟨0, c3Data⟩)] "/p".toList
          none 300000 "g2".toList
          ⟨.error "se".toList, .ok "c".toList, .ok "f".toList⟩).2
          (generateContextHash "/p".toList none) =
        some { timestamp := 300000,
               data := buildContext "/p".toList none "g2".toList
                 (generateContextHash "/p".toList none)
                 ⟨.error "se".toList, .ok "c".toList, .ok "f".toList⟩ }) :=
  ⟨(context_cache_ttl
      [(generateContextHash "/p".toList none, ⟨0, c3Data⟩)] "/p".toList none
      1000 "g2".toList ⟨.error "se".toList, .ok "c".toList, .ok "f".toList⟩
      ⟨0, c3Data⟩ (by simp [mapGet]) (by decide)).1 (by decide),
   (context_cache_ttl
      [(generateContextHash "/p".toList none, ⟨0, c3Data⟩)] "/p".toList none
      300000 "g2".toList ⟨.error "se".toList, .ok "c".toList, .ok "f".toList⟩
      ⟨0, c3Data⟩ (by simp [mapGet]) (by decide)).2 (by decide)⟩

/-- C8: on a cache miss the aggregation always completes: a failing git
provider yields a `null` (`none`) git field while the structure slot (and,
when a task was supplied, the relevance slot) is still populated from its
own provider; a structure or relevance failure is recorded as a
`structureError` / `filesError` field; and the composed payload is cached
under the derived key (stated for caches below capacity, where the fresh
entry survives the sweep untouched). -/
theorem aggregation_partial_failure (cache : ContextCache)
    (projectPath : List Char) (taskDescription : Option (List Char))
    (now : Int) (genStamp : List Char) (prov : Providers)
    (hmiss : ∀ e, mapGet cache (generateContextHash projectPath
      taskDescription) = some e → CACHE_TTL ≤ now - e.timestamp) :
    (getOrCreateContext cache projectPath taskDescription now genStamp
        prov).1 =
      buildContext projectPath taskDescription genStamp
        (generateContextHash projectPath taskDescription) prov ∧
    (∀ msg, prov.gitRes = .error msg →
      (buildContext projectPath taskDescription genStamp
        (generateContextHash projectPath taskDescription) prov).git =
        none) ∧
    (∀ g, prov.gitRes = .ok g →
      (buildContext projectPath taskDescription genStamp
        (generateContextHash projectPath taskDescription) prov).git =
        some g) ∧
    (∀ s, prov.structureRes = .ok s →
      (buildContext projectPath taskDescription genStamp
        (generateContextHash projectPath taskDescription) prov).structureData =
        some s ∧
      (buildContext projectPath taskDescription genStamp
        (generateContextHash projectPath taskDescription) prov).structureError =
        none) ∧
    (∀ m1, prov.structureRes = .error m1 →
      (buildContext projectPath taskDescription genStamp
        (generateContextHash projectPath taskDescription) prov).structureError =
        some m1) ∧
    (∀ d f, taskDescription = some d → prov.filesRes = .ok f →
      (buildContext projectPath taskDescription genStamp
        (generateContextHash projectPath taskDescription) prov).relevantFiles =
        some f) ∧
    (∀ d m2, taskDescription = some d → prov.filesRes = .error m2 →
      (buildContext projectPath taskDescription genStamp
        (generateContextHash projectPath taskDescription) prov).filesError =
        some m2) ∧
    (cache.length < CACHE_CAPACITY →
      mapGet (getOrCreateContext cache projectPath taskDescription now
          genStamp prov).2
          (generateContextHash projectPath taskDescription) =
        some { timestamp := now,
               data := buildContext projectPath taskDescription genStamp
                 (generateContextHash projectPath taskDescription) prov }) := by
  have hres : getOrCreateContext cache projectPath taskDescription now
      genStamp prov =
      (buildContext projectPath taskDescription genStamp
         (generateContextHash projectPath taskDescription) prov,
       evictOld (mapSet cache (generateContextHash projectPath
           taskDescription)
         { timestamp := now,
           data := buildContext projectPath taskDescription genStamp
             (generateContextHash projectPath taskDescription) prov })) := by
    simp only [getOrCreateContext]
    cases hg : mapGet cache (generateContextHash projectPath taskDescription)
      with
    | none => rfl
    | some e => simp [if_neg (not_lt.mpr (hmiss e hg))]
  obtain ⟨sr, gr, fr⟩ := prov
  refine ⟨by rw [hres], ?_, ?_, ?_, ?_, ?_, ?_, ?_⟩
  · intro msg hg
    cases hg
    cases taskDescription <;> cases sr <;> cases fr <;> simp [buildContext]
  · intro g hg
    cases hg
    cases taskDescription <;> cases sr <;> cases fr <;> simp [buildContext]
  · intro s hs
    cases hs
    cases taskDescription <;> cases gr <;> cases fr <;> simp [buildContext]
  · intro m1 hs
    cases hs
    cases taskDescription <;> cases gr <;> cases fr <;> simp [buildContext]
  · intro d f ht hf
    cases ht
    cases hf
    cases sr <;> cases gr <;> simp [buildContext]
  · intro d m2 ht hf
    cases ht
    cases hf
    cases sr <;> cases gr <;> simp [buildContext]
  · intro hlt
    rw [hres]
    have hlen : (mapSet cache (generateContextHash projectPath
        taskDescription)
        { timestamp := now,
          data := buildContext projectPath taskDescription genStamp
            (generateContextHash projectPath taskDescription)
            ⟨sr, gr, fr⟩ }).length ≤ CACHE_CAPACITY := by
      have := length_mapSet_le cache (generateContextHash projectPath
        taskDescription)
        { timestamp := now,
          data := buildContext projectPath taskDescription genStamp
            (generateContextHash projectPath taskDescription)
            ⟨sr, gr, fr⟩ }
      omega
    rw [evictOld_of_le _ hlen]
    exact mapGet_mapSet_self _ _ _

/-- C8 witness: aggregating with a failing git provider and an available
structure and relevance provider on an empty cache. -/
theorem aggregation_partial_failure_witness :
    (getOrCreateContext [] "/p".toList (some "t".toList) 5 "g".toList
        ⟨.ok "s".toList, .error "ge".toList, .ok "f".toList⟩).1 =
      buildContext "/p".toList (some "t".toList) "g".toList
        (generateContextHash "/p".toList (some "t".toList))
        ⟨.ok "s".toList, .error "ge".toList, .ok "f".toList⟩ ∧
    (buildContext "/p".toList (some "t".toList) "g".toList
        (generateContextHash "/p".toList (some "t".toList))
        ⟨.ok "s".toList, .error "ge".toList, .ok "f".toList⟩).git = none ∧
    (buildContext "/p".toList (some "t".toList) "g".toList
        (generateContextHash "/p".toList (some "t".toList))
        ⟨.ok "s".toList, .error "ge".toList, .ok "f".toList⟩).structureData =
      some "s".toList ∧
    (buildContext "/p".toList (some "t".toList) "g".toList
        (generateContextHash "/p".toList (some "t".toList))
        ⟨.ok "s".toList, .error "ge".toList, .ok "f".toList⟩).relevantFiles =
      some "f".toList ∧
    mapGet (getOrCreateContext [] "/p".toList (some "t".toList) 5 "g".toList
        ⟨.ok "s".toList, .error "ge".toList, .ok "f".toList⟩).2
        (generateContextHash "/p".toList (some "t".toList)) =
      some { timestamp := 5,
             data := buildContext "/p".toList (some "t".toList) "g".toList
               (generateContextHash "/p".toList (some "t".toList))
               ⟨.ok "s".toList, .error "ge".toList, .ok "f".toList⟩ } := by
  have h := aggregation_partial_failure [] "/p".toList (some "t".toList) 5
    "g".toList ⟨.ok "s".toList, .error "ge".toList, .ok "f".toList⟩
    (by intro e he; simp [mapGet] at he)
  exact ⟨h.1, h.2.1 "ge".toList rfl, (h.2.2.2.1 "s".toList rfl).1,
    h.2.2.2.2.2.1 "t".toList "f".toList rfl rfl, h.2.2.2.2.2.2.2 (by decide)⟩

theorem not_mem_of_mapGet_none (m : ContextCache) (k : List Char)
    (h : mapGet m k = none) : k ∉ m.map Prod.fst := by
  induction m with
  | nil => simp
  | cons p rest ih =>
    rw [mapGet] at h
    by_cases hp : p.1 = k
    · rw [if_pos hp] at h
      exact absurd h (by simp)
    · rw [if_neg hp] at h
      simp only [List.map_cons, List.mem_cons]
      push_neg
      exact ⟨fun hh => hp hh.symm, ih h⟩

theorem mapSet_map_fst_of_get (m : ContextCache) (k : List Char)
    (v e : CacheEntry) (h : mapGet m k = some e) :
    (mapSet m k v).map Prod.fst = m.map Prod.fst := by
  induction m with
  | nil => simp [mapGet] at h
  | cons p rest ih =>
    rw [mapGet] at h
    by_cases hp : p.1 = k
    · rw [mapSet, if_pos hp]
      simp [hp]
    · rw [if_neg hp] at h
      rw [mapSet, if_neg hp]
      simp [ih h]

theorem mapSet_keys_nodup (m : ContextCache) (k : List Char) (v : CacheEntry)
    (h : (m.map Prod.fst).Nodup) : ((mapSet m k v).map Prod.fst).Nodup := by
  cases hm : mapGet m k with
  | some e =>
    rw [mapSet_map_fst_of_get m k v e hm]
    exact h
  | none =>
    rw [mapSet_eq_append m k v (not_mem_of_mapGet_none m k hm)]
    rw [List.map_append]
    simp [List.nodup_append, h, not_mem_of_mapGet_none m k hm]

theorem filter_keep_all (m : ContextCache) (k0 : List Char)
    (h : k0 ∉ m.map Prod.fst) :
    (m.filter fun p => !([k0].contains p.1)) = m := by
  induction m with
  | nil => rfl
  | cons p rest ih =>
    simp only [List.map_cons, List.mem_cons] at h
    push_neg at h
    rw [List.filter_cons, if_pos (by simp; exact fun hh => h.1 hh.symm),
      ih h.2]

theorem mapGet_filter_self (m : ContextCache) (k0 : List Char) :
    mapGet (m.filter fun p => !([k0].contains p.1)) k0 = none := by
  induction m with
  | nil => rfl
  | cons p rest ih =>
    rw [List.filter_cons]
    by_cases hp : p.1 = k0
    · rw [if_neg (by simp [hp])]
      exact ih
    · rw [if_pos (by simp [hp]), mapGet, if_neg hp]
      exact ih

theorem mapGet_filter_other (m : ContextCache) (k0 kq : List Char)
    (h : kq ≠ k0) :
    mapGet (m.filter fun p => !([k0].contains p.1)) kq = mapGet m kq := by
  induction m with
  | nil => rfl
  | cons p rest ih =>
    rw [List.filter_cons]
    by_cases hp : p.1 = k0
    · rw [if_neg (by simp [hp]), mapGet,
        if_neg (show ¬ p.1 = kq from fun hh => h (hh ▸ hp))]
      exact ih
    · rw [if_pos (by simp [hp]), mapGet, mapGet]
      by_cases hq : p.1 = kq
      · rw [if_pos hq, if_pos hq]
      · rw [if_neg hq, if_neg hq]
        exact ih

theorem length_filter_remove (m : ContextCache) (k0 : List Char)
    (hnodup : (m.map Prod.fst).Nodup) (hmem : k0 ∈ m.map Prod.fst) :
    (m.filter fun p => !([k0].contains p.1)).length = m.length - 1 := by
  induction m with
  | nil => simp at hmem
  | cons p rest ih =>
    simp only [List.map_cons, List.nodup_cons] at hnodup
    rw [List.filter_cons]
    by_cases hp : p.1 = k0
    · rw [if_neg (by simp [hp]), filter_keep_all rest k0 (hp ▸ hnodup.1)]
      simp
    · have hmem' : k0 ∈ rest.map Prod.fst := by
        rcases List.mem_cons.mp hmem with hh | hh
        · exact absurd hh.symm hp
        · exact hh
      have hpos : 0 < rest.length := by
        have := List.length_pos_of_mem hmem'
        simpa using this
      rw [if_pos (by simp [hp]), List.length_cons, ih hnodup.2 hmem']
      simp only [List.length_cons]
      omega

/-- C5: after any insertion completes (including its synchronous sweep) a
cache with well-formed (duplicate-free) keys holds at most 50 entries; and
inserting a fresh 51st key into a 50-entry cache whose timestamps are
pairwise distinct evicts exactly one entry — the one with the oldest
creation timestamp — leaving the cache at 50 entries with every other key's
binding unchanged and the evicted key absent. -/
theorem cache_capacity_eviction :
    (∀ (cache : ContextCache) (k : List Char) (v : CacheEntry),
      (cache.map Prod.fst).Nodup →
      (evictOld (mapSet cache k v)).length ≤ CACHE_CAPACITY) ∧
    (∀ (cache : ContextCache) (k : List Char) (v : CacheEntry),
      cache.length = 50 → (cache.map Prod.fst).Nodup →
      k ∉ cache.map Prod.fst →
      ((mapSet cache k v).map fun p => p.2.timestamp).Nodup →
      ∃ w, w ∈ mapSet cache k v ∧
        (∀ q ∈ mapSet cache k v, q ≠ w → w.2.timestamp < q.2.timestamp) ∧
        (evictOld (mapSet cache k v)).length = 50 ∧
        (∀ kq, kq ≠ w.1 →
          mapGet (evictOld (mapSet cache k v)) kq =
            mapGet (mapSet cache k v) kq) ∧
        mapGet (evictOld (mapSet cache k v)) w.1 = none) := by
  constructor
  · intro cache k v hkeys
    have hkeys' : ((mapSet cache k v).map Prod.fst).Nodup :=
      mapSet_keys_nodup cache k v hkeys
    by_cases hl : (mapSet cache k v).length ≤ CACHE_CAPACITY
    · rw [evictOld_of_le _ hl]
      exact hl
    · unfold evictOld
      rw [if_pos (by omega)]
      have hsub : (((mapSet cache k v).filter fun p =>
          !((((mapSet cache k v).mergeSort byTimestampDesc).drop
            CACHE_CAPACITY).map Prod.fst).contains p.1).map Prod.fst) ⊆
          (((mapSet cache k v).mergeSort byTimestampDesc).take
            CACHE_CAPACITY).map Prod.fst := by
        intro x hx
        obtain ⟨q, hq, rfl⟩ := List.mem_map.mp hx
        obtain ⟨hqm, hpred⟩ := List.mem_filter.mp hq
        have hnot : q.1 ∉ (((mapSet cache k v).mergeSort
            byTimestampDesc).drop CACHE_CAPACITY).map Prod.fst := by
          simpa using hpred
        have hq_entries : q ∈ (mapSet cache k v).mergeSort byTimestampDesc :=
          List.mem_mergeSort.mpr hqm
        rw [← List.take_append_drop CACHE_CAPACITY
          ((mapSet cache k v).mergeSort byTimestampDesc)] at hq_entries
        rcases List.mem_append.mp hq_entries with h1 | h2
        · exact List.mem_map_of_mem Prod.fst h1
        · exact absurd (List.mem_map_of_mem Prod.fst h2) hnot
      have hnodup_res : ((((mapSet cache k v).filter fun p =>
          !((((mapSet cache k v).mergeSort byTimestampDesc).drop
            CACHE_CAPACITY).map Prod.fst).contains p.1)).map
            Prod.fst).Nodup :=
        List.Nodup.sublist
          (List.Sublist.map Prod.fst (List.filter_sublist _)) hkeys'
      have hlen_le := (hnodup_res.subperm hsub).length_le
      calc ((mapSet cache k v).filter fun p =>
              !((((mapSet cache k v).mergeSort byTimestampDesc).drop
                CACHE_CAPACITY).map Prod.fst).contains p.1).length
          = (((mapSet cache k v).filter fun p =>
              !((((mapSet cache k v).mergeSort byTimestampDesc).drop
                CACHE_CAPACITY).map Prod.fst).contains p.1).map
                Prod.fst).length := (List.length_map _ _).symm
        _ ≤ ((((mapSet cache k v).mergeSort byTimestampDesc).take
              CACHE_CAPACITY).map Prod.fst).length := hlen_le
        _ = (((mapSet cache k v).mergeSort byTimestampDesc).take
              CACHE_CAPACITY).length := List.length_map _ _
        _ ≤ CACHE_CAPACITY := by
              rw [List.length_take]
              omega
  · intro cache k v hlen50 hkeys hfresh hts
    have hset : mapSet cache k v = cache ++ [(k, v)] :=
      mapSet_eq_append cache k v hfresh
    have hlen51 : (mapSet cache k v).length = 51 := by
      rw [hset]
      simp [hlen50]
    have hkeys' : ((mapSet cache k v).map Prod.fst).Nodup :=
      mapSet_keys_nodup cache k v hkeys
    have htrans : ∀ a b c : List Char × CacheEntry, byTimestampDesc a b →
        byTimestampDesc b c → byTimestampDesc a c := by
      intro a b c hab hbc
      simp only [byTimestampDesc, decide_eq_true_eq] at hab hbc ⊢
      omega
    have htotal : ∀ a b : List Char × CacheEntry,
        byTimestampDesc a b || byTimestampDesc b a := by
      intro a b
      simp only [byTimestampDesc, Bool.or_eq_true, decide_eq_true_eq]
      omega
    have hperm : List.Perm ((mapSet cache k v).mergeSort byTimestampDesc)
        (mapSet cache k v) := List.mergeSort_perm _ _
    have hslen : ((mapSet cache k v).mergeSort byTimestampDesc).length =
        51 := by
      rw [List.length_mergeSort]
      exact hlen51
    have h50 : CACHE_CAPACITY <
        ((mapSet cache k v).mergeSort byTimestampDesc).length := by
      rw [hslen]
      norm_num [CACHE_CAPACITY]
    have hsorted := List.sorted_mergeSort htrans htotal (mapSet cache k v)
    have hdrop : ((mapSet cache k v).mergeSort byTimestampDesc).drop
        CACHE_CAPACITY =
        [((mapSet cache k v).mergeSort byTimestampDesc)[CACHE_CAPACITY]] := by
      rw [List.drop_eq_getElem_cons h50,
        List.drop_eq_nil_of_le (by rw [hslen]; norm_num [CACHE_CAPACITY])]
    have hw_entries :
        ((mapSet cache k v).mergeSort byTimestampDesc)[CACHE_CAPACITY] ∈
          (mapSet cache k v).mergeSort byTimestampDesc :=
      List.getElem_mem h50
    have hw_mem :
        ((mapSet cache k v).mergeSort byTimestampDesc)[CACHE_CAPACITY] ∈
          mapSet cache k v := hperm.mem_iff.mp hw_entries
    refine ⟨((mapSet cache k v).mergeSort byTimestampDesc)[CACHE_CAPACITY],
      hw_mem, ?_, ?_, ?_, ?_⟩
    · intro q hq hqw
      have hq_entries : q ∈ (mapSet cache k v).mergeSort byTimestampDesc :=
        hperm.mem_iff.mpr hq
      have hq_split := hq_entries
      rw [← List.take_append_drop CACHE_CAPACITY
        ((mapSet cache k v).mergeSort byTimestampDesc)] at hq_split
      rcases List.mem_append.mp hq_split with hqt | hqd
      · have hsorted' := hsorted
        rw [← List.take_append_drop CACHE_CAPACITY
          ((mapSet cache k v).mergeSort byTimestampDesc)] at hsorted'
        obtain ⟨-, -, hrel⟩ := List.pairwise_append.mp hsorted'
        have hle := hrel q hqt
          ((mapSet cache k v).mergeSort byTimestampDesc)[CACHE_CAPACITY]
          (by rw [hdrop]; simp)
        have hle' :
            (((mapSet cache k v).mergeSort
              byTimestampDesc)[CACHE_CAPACITY]).2.timestamp ≤
              q.2.timestamp := by
          simpa [byTimestampDesc] using hle
        have htsE : (((mapSet cache k v).mergeSort byTimestampDesc).map
            fun p => p.2.timestamp).Nodup :=
          ((hperm.map _).nodup_iff).mpr hts
        have hne_ts : q.2.timestamp ≠
            (((mapSet cache k v).mergeSort
              byTimestampDesc)[CACHE_CAPACITY]).2.timestamp := by
          intro heq
          exact hqw (List.inj_on_of_nodup_map htsE hq_entries hw_entries heq)
        exact lt_of_le_of_ne hle' (fun hh => hne_ts hh.symm)
      · rw [hdrop] at hqd
        exact absurd (List.mem_singleton.mp hqd) hqw
    · have heq : evictOld (mapSet cache k v) =
          (mapSet cache k v).filter fun p =>
            !([(((mapSet cache k v).mergeSort
              byTimestampDesc)[CACHE_CAPACITY]).1].contains p.1) := by
        unfold evictOld
        rw [if_pos (by omega)]
        simp only [hdrop, List.map_cons, List.map_nil]
      rw [heq, length_filter_remove _ _ hkeys'
        (List.mem_map_of_mem Prod.fst hw_mem), hlen51]
    · intro kq hkq
      have heq : evictOld (mapSet cache k v) =
          (mapSet cache k v).filter fun p =>
            !([(((mapSet cache k v).mergeSort
              byTimestampDesc)[CACHE_CAPACITY]).1].contains p.1) := by
        unfold evictOld
        rw [if_pos (by omega)]
        simp only [hdrop, List.map_cons, List.map_nil]
      rw [heq]
      exact mapGet_filter_other _ _ _ hkq
    · have heq : evictOld (mapSet cache k v) =
          (mapSet cache k v).filter fun p =>
            !([(((mapSet cache k v).mergeSort
              byTimestampDesc)[CACHE_CAPACITY]).1].contains p.1) := by
        unfold evictOld
        rw [if_pos (by omega)]
        simp only [hdrop, List.map_cons, List.map_nil]
      rw [heq]
      exact mapGet_filter_self _ _

/-- A 50-entry cache with pairwise distinct keys (runs of `a` of lengths 1
to 50) and pairwise distinct timestamps 0 to 49. -/
def c5Cache : ContextCache :=
  (List.range 50).map fun i =>
    (List.replicate (i + 1) 'a',
     { timestamp := (i : Int),
       data := { generated := [], projectPath := [], hash := [] } })

/-- C5 witness: the theorem instantiated on the concrete 50-entry cache and
a fresh 51st key with the newest timestamp. -/
theorem cache_capacity_eviction_witness :
    (evictOld (mapSet c5Cache "b".toList
      ⟨1000, { generated := [], projectPath := [], hash := [] }⟩)).length ≤
      CACHE_CAPACITY ∧
    (∃ w, w ∈ mapSet c5Cache "b".toList
        ⟨1000, { generated := [], projectPath := [], hash := [] }⟩ ∧
      (∀ q ∈ mapSet c5Cache "b".toList
          ⟨1000, { generated := [], projectPath := [], hash := [] }⟩,
        q ≠ w → w.2.timestamp < q.2.timestamp) ∧
      (evictOld (mapSet c5Cache "b".toList
        ⟨1000, { generated := [], projectPath := [], hash := [] }⟩)).length =
        50 ∧
      (∀ kq, kq ≠ w.1 →
        mapGet (evictOld (mapSet c5Cache "b".toList
            ⟨1000, { generated := [], projectPath := [], hash := [] }⟩)) kq =
          mapGet (mapSet c5Cache "b".toList
            ⟨1000, { generated := [], projectPath := [], hash := [] }⟩) kq) ∧
      mapGet (evictOld (mapSet c5Cache "b".toList
          ⟨1000, { generated := [], projectPath := [], hash := [] }⟩)) w.1 =
        none) :=
  ⟨cache_capacity_eviction.1 c5Cache "b".toList
     ⟨1000, { generated := [], projectPath := [], hash := [] }⟩ (by decide),
   cache_capacity_eviction.2 c5Cache "b".toList
     ⟨1000, { generated := [], projectPath := [], hash := [] }⟩ (by decide)
     (by decide) (by decide) (by decide)⟩

end CodeToPrompt
